import Mathlib

/-!
Verification of the grid layout engine `GridCanvas` from
`napari/components/grid.py`.

The Python class stores three configuration fields (`enabled`, `size`,
`stride`) and exposes two arithmetic queries, `actual_size` and `position`.
We embed the arithmetic exactly, with Lean's exact integer and rational
arithmetic standing in for Python ints and for numpy's float64 intermediate
results (exact for the magnitudes this code is used with):

* Python's true division `a / b` of ints followed by `np.ceil(...)` and
  `.astype(int)` is the rational ceiling `⌈a / b⌉`; when `b = 0` the Python
  division raises `ZeroDivisionError`, which we model as `none`.
* numpy scalar division `a / b` of int64 values does not raise on `b = 0`:
  it emits a runtime warning and produces `inf` (`a > 0`), `-inf` (`a < 0`)
  or `nan` (`a = 0`); `.astype(int)` of any of those non-finite float64
  values produces the int64 minimum on the reference (x86-64) platform.
* `np.ceil(np.sqrt(n))` for an int64 `n ≥ 0` is the exact ceiling of the
  real square root (float64 sqrt is correctly rounded and cannot cross an
  integer boundary at these magnitudes), expressed through `Nat.sqrt`;
  for `n < 0`, `np.sqrt` gives `nan`, cast to the int64 minimum.

The event emission (`self.events.update()`) performed by each property
setter belongs to an external collaborator (`EmitterGroup`) and carries no
payload; it is not part of the arithmetic state and is not modelled.
-/

set_option autoImplicit false
set_option linter.unusedVariables false

namespace Napari

/-- Smallest value of a 64-bit signed integer, the value produced on the
reference platform when a non-finite float64 is cast to int64. -/
def int64Min : ℤ := -(2 ^ 63)

/-- Exact ceiling division on ℤ: `⌈a / b⌉` for `b ≠ 0`, written through
flooring division as `-⌊-a / b⌋` so that it evaluates by kernel reduction.
`ceilDiv_eq_rat_ceil` below proves it equal to the rational ceiling. -/
def ceilDiv (a b : ℤ) : ℤ := -((-a).fdiv b)

/-- Models Python's built-in `abs` on an int, as an integer. -/
def pyAbs (a : ℤ) : ℤ := (a.natAbs : ℤ)

/-- Models Python's built-in `max` on two ints (`max(a, b)`). -/
def pyMax (a b : ℤ) : ℤ := if a ≤ b then b else a

/-- Models `np.ceil(a / b).astype(int)` where `a` and `b` are numpy int64
scalars: exact rational ceiling for `b ≠ 0`; for `b = 0` numpy emits a
warning and yields a non-finite float, cast to the int64 minimum. -/
def npCeilDiv (a b : ℤ) : ℤ :=
  if b = 0 then int64Min else ceilDiv a b

/-- Linear search for the least `c` at or above the accumulator with
`n ≤ c * c`, by structural recursion on the fuel so that it evaluates by
kernel reduction. -/
def natSqrtCeilGo (n : ℕ) : ℕ → ℕ → ℕ
  | 0, c => c
  | fuel + 1, c => if n ≤ c * c then c else natSqrtCeilGo n fuel (c + 1)

/-- The ceiling of the real square root of a natural number: the least
`c` with `n ≤ c * c` (see `natSqrtCeil_spec` and `natSqrtCeil_eq_ceil_sqrt`). -/
def natSqrtCeil (n : ℕ) : ℕ := natSqrtCeilGo n n 0

/-- Models `np.ceil(np.sqrt(n)).astype(int)` for an int64 scalar `n`:
the ceiling of the real square root for `n ≥ 0`, and the int64 minimum
for `n < 0` (`np.sqrt` of a negative is nan, cast to int64). -/
def npSqrtCeil (n : ℤ) : ℤ :=
  if n < 0 then int64Min else (natSqrtCeil n.toNat : ℤ)

/-- Models `np.ceil(a / b).astype(int)` where `a / b` is Python true
division of plain ints (as in `nlayers / abs(self.stride)`): this division
raises `ZeroDivisionError` when `b = 0`, modelled as `none`. -/
def pyNpCeilDiv (a b : ℤ) : Option ℤ :=
  if b = 0 then none else some (ceilDiv a b)

/-- The grid configuration state held by `GridCanvas.__init__`:
`_enabled`, `_size` (a pair of ints, `-1` meaning auto), `_stride`. -/
structure GridCanvas where
  enabled : Bool
  size : ℤ × ℤ
  stride : ℤ
  deriving DecidableEq

/-- The constructor defaults: `size=(-1, -1), stride=1, enabled=False`. -/
def GridCanvas.default : GridCanvas :=
  { enabled := false, size := (-1, -1), stride := 1 }

/-- Models the `enabled` setter: assigns `self._enabled` (the
`events.update()` call is external and not modelled). -/
def GridCanvas.set_enabled (g : GridCanvas) (enabled : Bool) : GridCanvas :=
  { g with enabled := enabled }

/-- Models the `size` setter: assigns `self._size`. -/
def GridCanvas.set_size (g : GridCanvas) (size : ℤ × ℤ) : GridCanvas :=
  { g with size := size }

/-- Models the `stride` setter: assigns `self._stride` with no validation
whatsoever (the source has no check against `stride == 0`). -/
def GridCanvas.set_stride (g : GridCanvas) (stride : ℤ) : GridCanvas :=
  { g with stride := stride }

/-- The branch of `GridCanvas.actual_size` that resolves the `-1` auto
sentinels of the requested `(n_row, n_column)` against the computed number
of grid squares (the `if n_row == -1 and n_column == -1: ... elif ...`
chain of the source, before the final clamping). -/
def gridShapeRaw (size : ℤ × ℤ) (n_grid_squares : ℤ) : ℤ × ℤ :=
  if size.1 = -1 ∧ size.2 = -1 then
    let n_column := npSqrtCeil n_grid_squares
    (npCeilDiv n_grid_squares n_column, n_column)
  else if size.1 = -1 then
    (npCeilDiv n_grid_squares size.2, size.2)
  else if size.2 = -1 then
    (size.1, npCeilDiv n_grid_squares size.1)
  else
    (size.1, size.2)

/-- Models `GridCanvas.actual_size(nlayers)`. Returns `none` exactly when
the Python code raises (`ZeroDivisionError` from
`nlayers / abs(self.stride)` with a zero stride, reached only when the
grid is enabled). The final pair applies the clamps
`n_row = max(1, n_row)` and `n_column = max(1, n_column)`. -/
def GridCanvas.actual_size (g : GridCanvas) (nlayers : ℤ) : Option (ℤ × ℤ) :=
  if g.enabled then
    match pyNpCeilDiv nlayers (pyAbs g.stride) with
    | none => none
    | some n_grid_squares =>
      let rc : ℤ × ℤ := gridShapeRaw g.size n_grid_squares
      some (pyMax 1 rc.1, pyMax 1 rc.2)
  else
    some (1, 1)

/-- Models `GridCanvas.position(index, nlayers)`. The first statement of
the enabled branch calls `actual_size`, so a zero stride propagates its
`ZeroDivisionError` (`none`) from there; the later divisions
`adj_i // abs(self.stride)`, `adj_i % (n_row * n_column)`,
`adj_i // n_column`, `adj_i % n_column` are Python floor division and
Python modulo on ints, i.e. `Int.fdiv` and `Int.fmod`. -/
def GridCanvas.position (g : GridCanvas) (index nlayers : ℤ) : Option (ℤ × ℤ) :=
  if g.enabled then
    match g.actual_size nlayers with
    | none => none
    | some (n_row, n_column) =>
      let adj₁ : ℤ := if g.stride < 0 then nlayers - index - 1 else index
      let adj₂ : ℤ := Int.fdiv adj₁ (pyAbs g.stride)
      let adj₃ : ℤ := Int.fmod adj₂ (n_row * n_column)
      some (Int.fdiv adj₃ n_column, Int.fmod adj₃ n_column)
  else
    some (0, 0)

/-- The sizing rule exactly as the specification words it, for comparison
with `GridCanvas.actual_size`: `n_cells = ceil(nlayers / abs(stride))`;
both dimensions auto ⇒ `cols = ceil(sqrt(n_cells))`,
`rows = ceil(n_cells / cols)`; only rows auto ⇒
`rows = ceil(n_cells / cols_requested)`; only cols auto ⇒
`cols = ceil(n_cells / rows_requested)`; neither auto ⇒ the requested
fixed values; finally both results are clamped to a minimum of 1. The
ceilings are the exact rational ceilings (see `ceilDiv_eq_rat_ceil` and
`natSqrtCeil_spec`). -/
def specEffectiveSize (size : ℤ × ℤ) (stride nlayers : ℤ) : ℤ × ℤ :=
  let n_cells := ceilDiv nlayers (pyAbs stride)
  let rc : ℤ × ℤ :=
    if size.1 = -1 ∧ size.2 = -1 then
      let cols := npSqrtCeil n_cells
      (ceilDiv n_cells cols, cols)
    else if size.1 = -1 then
      (ceilDiv n_cells size.2, size.2)
    else if size.2 = -1 then
      (size.1, ceilDiv n_cells size.1)
    else
      (size.1, size.2)
  (pyMax 1 rc.1, pyMax 1 rc.2)

-- Sanity checks against the behaviour of the Python source.
example : GridCanvas.actual_size { enabled := true, size := (-1, -1), stride := 1 } 5 =
    some (2, 3) := by decide
example : GridCanvas.position { enabled := true, size := (-1, -1), stride := 1 } 4 5 =
    some (1, 1) := by decide
example : GridCanvas.actual_size { enabled := true, size := (2, -1), stride := 1 } 5 =
    some (2, 3) := by decide
example : GridCanvas.actual_size { enabled := true, size := (-1, -1), stride := 0 } 5 =
    none := by decide
example : GridCanvas.position { enabled := true, size := (2, 2), stride := 2 } 8 10 =
    GridCanvas.position { enabled := true, size := (2, 2), stride := 2 } 0 10 := by decide
example : GridCanvas.position { enabled := true, size := (-1, -1), stride := -1 } 0 3 =
    GridCanvas.position { enabled := true, size := (-1, -1), stride := 1 } 2 3 := by decide

/-! ### Facts about the numeric helpers -/

theorem pyAbs_nonneg (s : ℤ) : 0 ≤ pyAbs s := Int.ofNat_nonneg _

theorem pyAbs_pos {s : ℤ} (hs : s ≠ 0) : 0 < pyAbs s := by
  unfold pyAbs
  exact_mod_cast Int.natAbs_pos.mpr hs

theorem pyAbs_ne_zero {s : ℤ} (hs : s ≠ 0) : pyAbs s ≠ 0 :=
  ne_of_gt (pyAbs_pos hs)

theorem pyAbs_neg (s : ℤ) : pyAbs (-s) = pyAbs s := by
  simp [pyAbs]

theorem one_le_pyMax_one (x : ℤ) : 1 ≤ pyMax 1 x := by
  unfold pyMax
  split <;> omega

theorem pyMax_one_eq_one {x : ℤ} (hx : x ≤ 1) : pyMax 1 x = 1 := by
  unfold pyMax
  split <;> omega

theorem ceilDiv_zero_right (a : ℤ) : ceilDiv a 0 = 0 := by
  simp [ceilDiv]

/-- `ceilDiv` written through Euclidean division, for a nonnegative divisor. -/
theorem ceilDiv_eq_neg_ediv (a : ℤ) {b : ℤ} (hb : 0 ≤ b) : ceilDiv a b = -(-a / b) := by
  rw [ceilDiv, Int.fdiv_eq_ediv _ hb]

/-- Justification that `ceilDiv` is the exact rational ceiling (for the
positive divisors the grid code meets on its defined paths). -/
theorem ceilDiv_eq_rat_ceil (a : ℤ) {b : ℤ} (hb : 0 < b) :
    ceilDiv a b = ⌈(a : ℚ) / (b : ℚ)⌉ := by
  have hbq : ((b.toNat : ℕ) : ℚ) = (b : ℚ) := by
    exact_mod_cast congrArg (fun z : ℤ => (z : ℚ)) (Int.toNat_of_nonneg hb.le)
  have h1 : ((a : ℚ) / b) = -(((-a : ℤ) : ℚ) / ((b.toNat : ℕ) : ℚ)) := by
    rw [hbq]
    push_cast
    ring
  rw [ceilDiv_eq_neg_ediv _ hb.le, h1, Int.ceil_neg, Rat.floor_intCast_div_natCast,
    Int.toNat_of_nonneg hb.le]

/-- The strict comparison against `ceilDiv` transfers to a product bound:
for a positive divisor, `m < ⌈a / b⌉` iff `m * b < a`. -/
theorem lt_ceilDiv_iff {a b m : ℤ} (hb : 0 < b) : m < ceilDiv a b ↔ m * b < a := by
  rw [ceilDiv_eq_neg_ediv _ hb.le]
  constructor
  · intro h
    have h2 : -a < -m * b := (Int.ediv_lt_iff_lt_mul hb).mp (by omega)
    rw [neg_mul] at h2
    omega
  · intro h
    have h2 : -a / b < -m := (Int.ediv_lt_iff_lt_mul hb).mpr (by rw [neg_mul]; omega)
    omega

theorem natSqrtCeilGo_spec (n : ℕ) :
    ∀ fuel c : ℕ, n ≤ (c + fuel) * (c + fuel) →
      n ≤ natSqrtCeilGo n fuel c * natSqrtCeilGo n fuel c ∧
      ∀ d, c ≤ d → n ≤ d * d → natSqrtCeilGo n fuel c ≤ d := by
  intro fuel
  induction fuel with
  | zero =>
    intro c h
    refine ⟨by simpa [natSqrtCeilGo] using h, ?_⟩
    intro d hcd _
    simpa [natSqrtCeilGo] using hcd
  | succ fuel ih =>
    intro c h
    by_cases hc : n ≤ c * c
    · refine ⟨by simp [natSqrtCeilGo, hc], ?_⟩
      intro d hcd _
      simpa [natSqrtCeilGo, hc] using hcd
    · have h' : n ≤ (c + 1 + fuel) * (c + 1 + fuel) := by
        have : c + (fuel + 1) = c + 1 + fuel := by omega
        rwa [this] at h
      obtain ⟨h1, h2⟩ := ih (c + 1) h'
      refine ⟨by simpa [natSqrtCeilGo, hc] using h1, ?_⟩
      intro d hcd hd
      have hcd' : c + 1 ≤ d := by
        rcases Nat.lt_or_ge c d with h3 | h3
        · omega
        · exact absurd (le_trans hd (Nat.mul_le_mul h3 h3)) hc
      simpa [natSqrtCeilGo, hc] using h2 d hcd' hd

/-- `natSqrtCeil n` is the least natural `c` with `n ≤ c * c`, i.e. the
ceiling of the real square root of `n`. -/
theorem natSqrtCeil_spec (n : ℕ) :
    n ≤ natSqrtCeil n * natSqrtCeil n ∧ ∀ d, n ≤ d * d → natSqrtCeil n ≤ d := by
  have hn : n ≤ (0 + n) * (0 + n) := by nlinarith
  obtain ⟨h1, h2⟩ := natSqrtCeilGo_spec n n 0 hn
  exact ⟨h1, fun d hd => h2 d (Nat.zero_le _) hd⟩

/-- Justification that `natSqrtCeil` is the exact ceiling of the real
square root, the value `np.ceil(np.sqrt(n))` computes. -/
theorem natSqrtCeil_eq_ceil_real_sqrt (n : ℕ) :
    (natSqrtCeil n : ℤ) = ⌈Real.sqrt n⌉ := by
  obtain ⟨h1, h2⟩ := natSqrtCeil_spec n
  symm
  rw [Int.ceil_eq_iff]
  push_cast
  constructor
  · rcases Nat.eq_zero_or_pos (natSqrtCeil n) with hr | hr
    · rw [hr]
      push_cast
      have := Real.sqrt_nonneg (n : ℝ)
      linarith
    · by_contra hcon
      push_neg at hcon
      have hs0 : (0 : ℝ) ≤ Real.sqrt n := Real.sqrt_nonneg _
      have hsq := Real.sq_sqrt (show (0 : ℝ) ≤ (n : ℝ) by positivity)
      have hn : (n : ℝ) ≤ ((natSqrtCeil n : ℝ) - 1) ^ 2 := by nlinarith
      have hcast : ((natSqrtCeil n : ℝ) - 1) = ((natSqrtCeil n - 1 : ℕ) : ℝ) := by
        push_cast [Nat.cast_sub hr]
        ring
      have hnat : n ≤ (natSqrtCeil n - 1) * (natSqrtCeil n - 1) := by
        rw [hcast, pow_two] at hn
        exact_mod_cast hn
      have := h2 _ hnat
      omega
  · have hle : (n : ℝ) ≤ (natSqrtCeil n : ℝ) ^ 2 := by
      rw [pow_two]
      exact_mod_cast h1
    calc Real.sqrt n ≤ Real.sqrt ((natSqrtCeil n : ℝ) ^ 2) := Real.sqrt_le_sqrt hle
      _ = (natSqrtCeil n : ℝ) := Real.sqrt_sq (by positivity)

theorem npSqrtCeil_of_nonneg {n : ℤ} (hn : 0 ≤ n) :
    npSqrtCeil n = (natSqrtCeil n.toNat : ℤ) := by
  simp [npSqrtCeil, not_lt.mpr hn]

theorem npSqrtCeil_pos {n : ℤ} (hn : 1 ≤ n) : 0 < npSqrtCeil n := by
  rw [npSqrtCeil_of_nonneg (by omega)]
  have h1 := (natSqrtCeil_spec n.toNat).1
  have h2 : 1 ≤ n.toNat := by omega
  rcases Nat.eq_zero_or_pos (natSqrtCeil n.toNat) with h | h
  · rw [h] at h1
    omega
  · exact_mod_cast h

/-! ### Structural lemmas about the embedded grid operations -/

theorem GridCanvas.actual_size_of_ne_zero (g : GridCanvas) (nlayers : ℤ)
    (hen : g.enabled = true) (hs : g.stride ≠ 0) :
    g.actual_size nlayers =
      some (pyMax 1 (gridShapeRaw g.size (ceilDiv nlayers (pyAbs g.stride))).1,
            pyMax 1 (gridShapeRaw g.size (ceilDiv nlayers (pyAbs g.stride))).2) := by
  simp [GridCanvas.actual_size, hen, pyNpCeilDiv, pyAbs_ne_zero hs]

theorem GridCanvas.actual_size_bounds {g : GridCanvas} {nlayers r c : ℤ}
    (h : g.actual_size nlayers = some (r, c)) : 1 ≤ r ∧ 1 ≤ c := by
  cases hen : g.enabled with
  | false =>
    simp [GridCanvas.actual_size, hen, Prod.ext_iff] at h
    omega
  | true =>
    rcases hpy : pyNpCeilDiv nlayers (pyAbs g.stride) with _ | q
    · simp [GridCanvas.actual_size, hen, hpy] at h
    · simp [GridCanvas.actual_size, hen, hpy] at h
      obtain ⟨h1, h2⟩ := h
      exact ⟨h1 ▸ one_le_pyMax_one _, h2 ▸ one_le_pyMax_one _⟩

theorem GridCanvas.position_eq_fdiv {g : GridCanvas} {index nlayers r c : ℤ}
    (hen : g.enabled = true) (hrc : g.actual_size nlayers = some (r, c)) :
    g.position index nlayers =
      some ((((if g.stride < 0 then nlayers - index - 1 else index).fdiv
          (pyAbs g.stride)).fmod (r * c)).fdiv c,
        (((if g.stride < 0 then nlayers - index - 1 else index).fdiv
          (pyAbs g.stride)).fmod (r * c)).fmod c) := by
  simp [GridCanvas.position, hen, hrc]

/-- On the defined paths all divisors are positive, so Python's flooring
division and modulo agree with the mathematical Euclidean ones. -/
theorem GridCanvas.position_eq_ediv {g : GridCanvas} {index nlayers r c : ℤ}
    (hen : g.enabled = true) (hrc : g.actual_size nlayers = some (r, c)) :
    g.position index nlayers =
      some (((if g.stride < 0 then nlayers - index - 1 else index) / pyAbs g.stride
          % (r * c)) / c,
        ((if g.stride < 0 then nlayers - index - 1 else index) / pyAbs g.stride
          % (r * c)) % c) := by
  obtain ⟨hr, hc⟩ := GridCanvas.actual_size_bounds hrc
  have hrc0 : (0 : ℤ) ≤ r * c := mul_nonneg (by omega) (by omega)
  rw [GridCanvas.position_eq_fdiv hen hrc, Int.fdiv_eq_ediv _ (pyAbs_nonneg _),
    Int.fmod_eq_emod _ hrc0, Int.fdiv_eq_ediv _ (by omega : (0 : ℤ) ≤ c),
    Int.fmod_eq_emod _ (by omega : (0 : ℤ) ≤ c)]

/-- Whatever the index, an enabled grid with a nonzero stride places it at
a cell inside the `r × c` bounding box returned by `actual_size`. -/
theorem GridCanvas.position_bounds {g : GridCanvas} (index : ℤ) {nlayers r c : ℤ}
    (hen : g.enabled = true) (hrc : g.actual_size nlayers = some (r, c)) :
    ∃ row col, g.position index nlayers = some (row, col) ∧
      0 ≤ row ∧ row < r ∧ 0 ≤ col ∧ col < c := by
  obtain ⟨hr, hc⟩ := GridCanvas.actual_size_bounds hrc
  have hcpos : (0 : ℤ) < c := by omega
  have hrcpos : (0 : ℤ) < r * c := mul_pos (by omega) hcpos
  refine ⟨_, _, GridCanvas.position_eq_ediv hen hrc, ?_, ?_, ?_, ?_⟩
  · exact Int.ediv_nonneg (Int.emod_nonneg _ (ne_of_gt hrcpos)) hcpos.le
  · exact Int.ediv_lt_of_lt_mul hcpos (Int.emod_lt_of_pos _ hrcpos)
  · exact Int.emod_nonneg _ (ne_of_gt hcpos)
  · exact Int.emod_lt_of_pos _ hcpos

/-! ### Claim theorems -/

/-- C1: for every enabled configuration with nonzero stride and every index
in `[0, nlayers)` with `nlayers ≥ 1`, `position` is computed exactly as:
remap `index` to `nlayers - index - 1` when `stride < 0` (else keep it),
integer-divide the remapped index by `abs(stride)`, reduce modulo
`rows * cols` where `(rows, cols) = actual_size(nlayers)`, and return
`(slot / cols, slot % cols)` (Euclidean division and modulo). -/
theorem GridCanvas.position_formula (g : GridCanvas) (index nlayers r c : ℤ)
    (hen : g.enabled = true) (hs : g.stride ≠ 0) (hn : 1 ≤ nlayers)
    (hi0 : 0 ≤ index) (hi : index < nlayers)
    (hrc : g.actual_size nlayers = some (r, c)) :
    g.position index nlayers =
      some (((if g.stride < 0 then nlayers - index - 1 else index) / pyAbs g.stride
          % (r * c)) / c,
        ((if g.stride < 0 then nlayers - index - 1 else index) / pyAbs g.stride
          % (r * c)) % c) :=
  GridCanvas.position_eq_ediv hen hrc

/-- Witness for C1 at `enabled, size=(-1,-1), stride=-2, index=3, nlayers=7`,
where `actual_size` is `(2, 2)`. -/
theorem GridCanvas.position_formula_witness :
    GridCanvas.position { enabled := true, size := (-1, -1), stride := -2 } 3 7 =
      some (((if (-2 : ℤ) < 0 then 7 - 3 - 1 else 3) / pyAbs (-2) % (2 * 2)) / 2,
        ((if (-2 : ℤ) < 0 then 7 - 3 - 1 else 3) / pyAbs (-2) % (2 * 2)) % 2) :=
  GridCanvas.position_formula _ 3 7 2 2 rfl (by decide) (by decide) (by decide) (by decide)
    (by decide)

/-- C3: every valid index is placed inside the bounding box returned by
`actual_size`. -/
theorem GridCanvas.position_in_bounds (g : GridCanvas) (index nlayers r c : ℤ)
    (hen : g.enabled = true) (hs : g.stride ≠ 0) (hn : 1 ≤ nlayers)
    (hi0 : 0 ≤ index) (hi : index < nlayers)
    (hrc : g.actual_size nlayers = some (r, c)) :
    ∃ row col, g.position index nlayers = some (row, col) ∧
      0 ≤ row ∧ row < r ∧ 0 ≤ col ∧ col < c :=
  GridCanvas.position_bounds index hen hrc

/-- Witness for C3 at `enabled, size=(-1,-1), stride=1, index=4, nlayers=5`,
where `actual_size` is `(2, 3)`. -/
theorem GridCanvas.position_in_bounds_witness :
    ∃ row col,
      GridCanvas.position { enabled := true, size := (-1, -1), stride := 1 } 4 5 =
        some (row, col) ∧ 0 ≤ row ∧ row < 2 ∧ 0 ≤ col ∧ col < 3 :=
  GridCanvas.position_in_bounds _ 4 5 2 3 rfl (by decide) (by decide) (by decide) (by decide)
    (by decide)

/-- C2: with the grid enabled, a nonzero stride and `nlayers ≥ 1`,
`actual_size` computes exactly the sizing rule worded by the
specification (`specEffectiveSize`): `n_cells = ceil(nlayers/abs(stride))`,
the four auto-sentinel cases, and the final clamp to a minimum of 1. -/
theorem GridCanvas.actual_size_eq_spec (g : GridCanvas) (nlayers : ℤ)
    (hen : g.enabled = true) (hs : g.stride ≠ 0) (hn : 1 ≤ nlayers) :
    g.actual_size nlayers = some (specEffectiveSize g.size g.stride nlayers) := by
  have hb : 0 < pyAbs g.stride := pyAbs_pos hs
  have hnc1 : 0 < ceilDiv nlayers (pyAbs g.stride) := by
    rw [lt_ceilDiv_iff hb, zero_mul]
    omega
  rw [GridCanvas.actual_size_of_ne_zero g nlayers hen hs]
  unfold specEffectiveSize gridShapeRaw
  by_cases h1 : g.size.1 = -1 ∧ g.size.2 = -1
  · have hcols : npSqrtCeil (ceilDiv nlayers (pyAbs g.stride)) ≠ 0 :=
      ne_of_gt (npSqrtCeil_pos (by omega))
    simp [h1, npCeilDiv, hcols]
  · by_cases h2 : g.size.1 = -1
    · have h4 : g.size.2 ≠ -1 := fun h => h1 ⟨h2, h⟩
      by_cases hz : g.size.2 = 0
      · simp [h2, h4, hz, npCeilDiv, ceilDiv_zero_right,
          pyMax_one_eq_one (show int64Min ≤ 1 by decide),
          pyMax_one_eq_one (show (0 : ℤ) ≤ 1 by decide)]
      · simp [h2, h4, npCeilDiv, hz]
    · by_cases h3 : g.size.2 = -1
      · by_cases hz : g.size.1 = 0
        · simp [h2, h3, hz, npCeilDiv, ceilDiv_zero_right,
            pyMax_one_eq_one (show int64Min ≤ 1 by decide),
            pyMax_one_eq_one (show (0 : ℤ) ≤ 1 by decide)]
        · simp [h2, h3, npCeilDiv, hz]
      · simp [h2, h3]

/-- Witness for C2 at `enabled, size=(2,-1), stride=3, nlayers=7`. -/
theorem GridCanvas.actual_size_eq_spec_witness :
    GridCanvas.actual_size { enabled := true, size := (2, -1), stride := 3 } 7 =
      some (specEffectiveSize (2, -1) 3 7) :=
  GridCanvas.actual_size_eq_spec _ 7 rfl (by decide) (by decide)

/-- C4: for a positive stride `s`, the placement under `-s` is the
placement of the reversed index `nlayers - 1 - index` under `s`, all other
configuration fields equal. -/
theorem GridCanvas.position_stride_reversal (g : GridCanvas) (s index nlayers : ℤ)
    (hen : g.enabled = true) (hs : 0 < s) (hn : 1 ≤ nlayers)
    (hi0 : 0 ≤ index) (hi : index < nlayers) :
    ({ g with stride := -s } : GridCanvas).position index nlayers =
      ({ g with stride := s } : GridCanvas).position (nlayers - 1 - index) nlayers := by
  have hsz : ({ g with stride := -s } : GridCanvas).actual_size nlayers =
      ({ g with stride := s } : GridCanvas).actual_size nlayers := by
    simp [GridCanvas.actual_size, pyAbs_neg]
  have heq : nlayers - index - 1 = nlayers - 1 - index := by ring
  have hneg : -s < 0 := by omega
  have hpos : ¬s < 0 := by omega
  simp only [GridCanvas.position, hsz]
  cases hval : ({ g with stride := s } : GridCanvas).actual_size nlayers with
  | none => simp [hval]
  | some rc =>
    obtain ⟨r, c⟩ := rc
    simp [hval, hneg, hpos, pyAbs_neg, heq, hen]

/-- Witness for C4 at `enabled, size=(-1,-1)`, strides `-2` and `2`,
`index=1, nlayers=5`. -/
theorem GridCanvas.position_stride_reversal_witness :
    GridCanvas.position { enabled := true, size := (-1, -1), stride := -2 } 1 5 =
      GridCanvas.position { enabled := true, size := (-1, -1), stride := 2 } (5 - 1 - 1) 5 :=
  GridCanvas.position_stride_reversal { enabled := true, size := (-1, -1), stride := 1 } 2 1 5
    rfl (by decide) (by decide) (by decide) (by decide)

/-- C5: when the grid has fewer cells than `ceil(nlayers/abs(stride))`, at
least two distinct valid indices share a cell, and no valid index is ever
placed outside the `rows × cols` box. -/
theorem GridCanvas.position_wraparound (g : GridCanvas) (nlayers r c : ℤ)
    (hen : g.enabled = true) (hs : g.stride ≠ 0) (hn : 1 ≤ nlayers)
    (hrc : g.actual_size nlayers = some (r, c))
    (hsmall : r * c < ceilDiv nlayers (pyAbs g.stride)) :
    (∃ i j : ℤ, 0 ≤ i ∧ i < nlayers ∧ 0 ≤ j ∧ j < nlayers ∧ i ≠ j ∧
      g.position i nlayers = g.position j nlayers) ∧
    ∀ i : ℤ, 0 ≤ i → i < nlayers →
      ∃ row col, g.position i nlayers = some (row, col) ∧
        0 ≤ row ∧ row < r ∧ 0 ≤ col ∧ col < c := by
  have hb : 0 < pyAbs g.stride := pyAbs_pos hs
  obtain ⟨hr, hc⟩ := GridCanvas.actual_size_bounds hrc
  have hmn : r * c * pyAbs g.stride < nlayers := (lt_ceilDiv_iff hb).mp hsmall
  have hmb0 : 0 < r * c * pyAbs g.stride :=
    mul_pos (mul_pos (by omega) (by omega)) hb
  constructor
  · by_cases hneg : g.stride < 0
    · have h1 := @GridCanvas.position_eq_ediv g (nlayers - 1) nlayers r c hen hrc
      rw [if_pos hneg, show nlayers - (nlayers - 1) - 1 = 0 from by ring] at h1
      simp only [Int.zero_ediv, Int.zero_emod] at h1
      have h2 := @GridCanvas.position_eq_ediv g
        (nlayers - 1 - r * c * pyAbs g.stride) nlayers r c hen hrc
      rw [if_pos hneg,
        show nlayers - (nlayers - 1 - r * c * pyAbs g.stride) - 1 =
          r * c * pyAbs g.stride from by ring,
        Int.mul_ediv_cancel _ (ne_of_gt hb), Int.emod_self] at h2
      simp only [Int.zero_ediv, Int.zero_emod] at h2
      exact ⟨nlayers - 1, nlayers - 1 - r * c * pyAbs g.stride, by linarith, by linarith,
        by linarith, by linarith, by intro h; linarith, h1.trans h2.symm⟩
    · have h1 := @GridCanvas.position_eq_ediv g 0 nlayers r c hen hrc
      rw [if_neg hneg] at h1
      simp only [Int.zero_ediv, Int.zero_emod] at h1
      have h2 := @GridCanvas.position_eq_ediv g
        (r * c * pyAbs g.stride) nlayers r c hen hrc
      rw [if_neg hneg, Int.mul_ediv_cancel _ (ne_of_gt hb), Int.emod_self] at h2
      simp only [Int.zero_ediv, Int.zero_emod] at h2
      exact ⟨0, r * c * pyAbs g.stride, by linarith, by linarith, by linarith, by linarith,
        by intro h; linarith, h1.trans h2.symm⟩
  · intro i hi0 hi
    exact GridCanvas.position_bounds i hen hrc

/-- Witness for C5 at the scenario `enabled, size=(2,2), stride=2,
nlayers=10`: the grid has 4 cells but `ceil(10/2) = 5` are needed. -/
theorem GridCanvas.position_wraparound_witness :
    (∃ i j : ℤ, 0 ≤ i ∧ i < 10 ∧ 0 ≤ j ∧ j < 10 ∧ i ≠ j ∧
      GridCanvas.position { enabled := true, size := (2, 2), stride := 2 } i 10 =
        GridCanvas.position { enabled := true, size := (2, 2), stride := 2 } j 10) ∧
    ∀ i : ℤ, 0 ≤ i → i < 10 →
      ∃ row col,
        GridCanvas.position { enabled := true, size := (2, 2), stride := 2 } i 10 =
          some (row, col) ∧ 0 ≤ row ∧ row < 2 ∧ 0 ≤ col ∧ col < 2 :=
  GridCanvas.position_wraparound _ 10 2 2 rfl (by decide) (by decide) (by decide) (by decide)

/-- C8 counterexample: at `enabled, size=(-1,-1), stride=1, nlayers=5` the
value of `actual_size` — a `(rows, cols)` pair throughout this code — is
not `(3, 2)`. -/
theorem GridCanvas.actual_size_five_layers_ne :
    GridCanvas.actual_size { enabled := true, size := (-1, -1), stride := 1 } 5 ≠
      some (3, 2) := by
  decide

/-- C8 (amended): at that scenario `actual_size` is `(2, 3)` — rows 2,
cols 3, matching the claim's own parenthetical `cols=ceil(sqrt(5))=3,
rows=ceil(5/3)=2` — and the three stated positions hold as claimed. -/
theorem GridCanvas.five_layers_scenario :
    GridCanvas.actual_size { enabled := true, size := (-1, -1), stride := 1 } 5 =
      some (2, 3) ∧
    GridCanvas.position { enabled := true, size := (-1, -1), stride := 1 } 0 5 =
      some (0, 0) ∧
    GridCanvas.position { enabled := true, size := (-1, -1), stride := 1 } 2 5 =
      some (0, 2) ∧
    GridCanvas.position { enabled := true, size := (-1, -1), stride := 1 } 4 5 =
      some (1, 1) := by
  exact ⟨by decide, by decide, by decide, by decide⟩

/-- C6: with the grid disabled, `actual_size` is `(1, 1)` and `position` is
`(0, 0)`, regardless of the stored size and stride values. -/
theorem GridCanvas.disabled_identity (g : GridCanvas) (index nlayers : ℤ)
    (hd : g.enabled = false) (hn : 0 ≤ nlayers) :
    g.actual_size nlayers = some (1, 1) ∧ g.position index nlayers = some (0, 0) := by
  constructor
  · simp [GridCanvas.actual_size, hd]
  · simp [GridCanvas.position, hd]

/-- Witness for C6 at a disabled configuration with a zero stride and a
fixed stored size. -/
theorem GridCanvas.disabled_identity_witness :
    GridCanvas.actual_size { enabled := false, size := (2, 3), stride := 0 } 7 = some (1, 1) ∧
    GridCanvas.position { enabled := false, size := (2, 3), stride := 0 } (-5) 7 =
      some (0, 0) :=
  GridCanvas.disabled_identity _ (-5) 7 rfl (by decide)

/-- C7: for any configuration with nonzero stride and any `nlayers ≥ 0`
(zero layers and degenerate requested sizes included), `actual_size`
returns, without raising, a pair of integers each at least 1. -/
theorem GridCanvas.actual_size_total_pos (g : GridCanvas) (nlayers : ℤ)
    (hs : g.stride ≠ 0) (hn : 0 ≤ nlayers) :
    ∃ r c, g.actual_size nlayers = some (r, c) ∧ 1 ≤ r ∧ 1 ≤ c := by
  cases hen : g.enabled with
  | false => exact ⟨1, 1, by simp [GridCanvas.actual_size, hen], by omega, by omega⟩
  | true =>
    exact ⟨_, _, GridCanvas.actual_size_of_ne_zero g nlayers hen hs,
      one_le_pyMax_one _, one_le_pyMax_one _⟩

/-- Witness for C7 at an enabled configuration whose requested size
contains a zero column count, with zero layers and a negative stride. -/
theorem GridCanvas.actual_size_total_pos_witness :
    ∃ r c, GridCanvas.actual_size { enabled := true, size := (-1, 0), stride := -3 } 0 =
      some (r, c) ∧ 1 ≤ r ∧ 1 ≤ c :=
  GridCanvas.actual_size_total_pos _ 0 (by decide) (by decide)

/-- C9 (documenting the code at the failing input): the `stride` setter
stores 0 without raising — mutating the configuration — and the error only
surfaces later, as a `ZeroDivisionError` (`none`) from `actual_size`. -/
theorem GridCanvas.set_stride_zero_behaviour :
    GridCanvas.set_stride { enabled := true, size := (-1, -1), stride := 1 } 0 =
      { enabled := true, size := (-1, -1), stride := 0 } ∧
    GridCanvas.actual_size
      (GridCanvas.set_stride { enabled := true, size := (-1, -1), stride := 1 } 0) 1 =
      none := by
  constructor
  · rfl
  · decide

/-- C10: the stride setter accepts 0 and stores it; from that state, with
the grid enabled, both `actual_size` and `position` reach the division by
`abs(stride) == 0` and fail (`ZeroDivisionError`, modelled as `none`). -/
theorem GridCanvas.stride_zero_reachable (g : GridCanvas) (index nlayers : ℤ)
    (hen : g.enabled = true) (hn : 1 ≤ nlayers) :
    (g.set_stride 0).stride = 0 ∧
    (g.set_stride 0).actual_size nlayers = none ∧
    (g.set_stride 0).position index nlayers = none := by
  refine ⟨rfl, ?_, ?_⟩
  · simp [GridCanvas.set_stride, GridCanvas.actual_size, hen, pyNpCeilDiv, pyAbs]
  · simp [GridCanvas.set_stride, GridCanvas.position, GridCanvas.actual_size, hen,
      pyNpCeilDiv, pyAbs]

/-- Witness for C10 at the default-like enabled configuration. -/
theorem GridCanvas.stride_zero_reachable_witness :
    (GridCanvas.set_stride { enabled := true, size := (-1, -1), stride := 1 } 0).stride = 0 ∧
    (GridCanvas.set_stride { enabled := true, size := (-1, -1), stride := 1 } 0).actual_size
      1 = none ∧
    (GridCanvas.set_stride { enabled := true, size := (-1, -1), stride := 1 } 0).position
      0 1 = none :=
  GridCanvas.stride_zero_reachable _ 0 1 rfl (by decide)

end Napari
